import Mathlib

/-!
Shallow embedding of the MindEase single-page chat application
(`src/App.tsx`): the crisis detector, the session store, the
suggestion-directive parser, the conversation controller's turn
state, the Pomodoro timer state machine and the startup hydration,
with theorems checking the natural-language specification's claims
against these definitions.

JavaScript strings are modelled as `List Char` (all inputs appearing
in the claims are BMP text, where JS UTF-16 units and code points
coincide); machine time stamps (`Date.now()`) are `Nat` parameters.
-/

namespace MindEase

/-! ## JavaScript string primitives used by `App.tsx` -/

/-- `String.prototype.toLowerCase` restricted to the ASCII range, which is
the only case mapping the crisis keywords (all ASCII) can observe. -/
def jsToLowerChar (c : Char) : Char :=
  if 'A' ≤ c ∧ c ≤ 'Z' then Char.ofNat (c.toNat + 32) else c

/-- `text.toLowerCase()` on a JS string. -/
def jsToLower (s : List Char) : List Char := s.map jsToLowerChar

/-- Whether the first list is a prefix of the second (Bool-valued). -/
def listStartsWith : List Char → List Char → Bool
  | [], _ => true
  | _ :: _, [] => false
  | p :: ps, c :: cs => p == c && listStartsWith ps cs

/-- `hay.includes(needle)`: substring containment, JS semantics
(the empty needle is contained in every string). -/
def jsIncludes : List Char → List Char → Bool
  | [], needle => needle.isEmpty
  | c :: cs, needle => listStartsWith needle (c :: cs) || jsIncludes cs needle

/-- The WHATWG whitespace set that `String.prototype.trim` strips
(ASCII whitespace, NBSP, BOM and the Unicode space separators). -/
def isJsWhitespace (c : Char) : Bool :=
  c == ' ' || c == '\t' || c == '\n' || c == '\r' || c == '\x0b' || c == '\x0c' ||
  c == '\u00a0' || c == '\ufeff' || c == '\u1680' ||
  ( '\u2000' ≤ c && c ≤ '\u200a' ) ||
  c == '\u2028' || c == '\u2029' || c == '\u202f' || c == '\u205f' || c == '\u3000'

/-- `s.trim()`: strip leading and trailing JS whitespace. -/
def jsTrim (s : List Char) : List Char :=
  ((s.dropWhile isJsWhitespace).reverse.dropWhile isJsWhitespace).reverse

/-! ## Crisis detector (`CRISIS_KEYWORDS`, `App.tsx` lines 91 and 222-232) -/

/-- The fixed keyword list `CRISIS_KEYWORDS` of `App.tsx` line 91. -/
def CRISIS_KEYWORDS : List (List Char) :=
  [ "suicide".toList, "kill myself".toList, "self-harm".toList,
    "end it all".toList, "hurt myself".toList, "giving up on life".toList ]

/-- The pre-send crisis check of `handleSendMessage` (line 223):
`CRISIS_KEYWORDS.some(k => messageText.toLowerCase().includes(k))`. -/
def crisisDetect (messageText : List Char) : Bool :=
  CRISIS_KEYWORDS.any fun k => jsIncludes (jsToLower messageText) k

/-! ## Pomodoro timer (`PomodoroTimer`, `App.tsx` lines 705-746) -/

/-- The timer's two modes; the source names them `'focus'` and `'break'`
(`break` is a Lean keyword, so the rest mode is named `rest` here). -/
inductive TimerMode where
  | focus
  | rest
deriving DecidableEq

/-- The component state of `PomodoroTimer` (lines 706-710). -/
structure TimerState where
  focusMinutes : Nat
  breakMinutes : Nat
  timeLeft : Nat
  isActive : Bool
  mode : TimerMode
deriving DecidableEq

/-- The mode the timer switches to on expiry (line 718). -/
def flipMode : TimerMode → TimerMode
  | TimerMode.focus => TimerMode.rest
  | TimerMode.rest => TimerMode.focus

/-- The configured whole-minute duration of a mode (lines 720, 733). -/
def modeMinutes (s : TimerState) : TimerMode → Nat
  | TimerMode.focus => s.focusMinutes
  | TimerMode.rest => s.breakMinutes

/-- The `timeLeft === 0` branch of the `useEffect` at lines 712-723:
stop the timer, flip the mode and reload the countdown from the new
mode's configured duration. -/
def expireEffect (s : TimerState) : TimerState :=
  let nextMode := flipMode s.mode
  { s with isActive := false, mode := nextMode,
           timeLeft := modeMinutes s nextMode * 60 }

/-- One second of timer evolution: while active with time left the
interval decrements `timeLeft` (line 715); the effect re-runs on the
new state and, when the countdown has just reached zero, immediately
performs the expiry branch (lines 716-721). -/
def tick (s : TimerState) : TimerState :=
  if s.isActive = true ∧ 0 < s.timeLeft then
    let s' := { s with timeLeft := s.timeLeft - 1 }
    if s'.timeLeft = 0 then expireEffect s' else s'
  else s

/-- `n` seconds of timer evolution. -/
def ticks : Nat → TimerState → TimerState
  | 0, s => s
  | n + 1, s => ticks n (tick s)

/-- The timer started in Focus mode with the default 25-minute focus and
5-minute rest configuration (lines 706-710, after pressing Start). -/
def startFocus25 : TimerState :=
  { focusMinutes := 25, breakMinutes := 5, timeLeft := 25 * 60,
    isActive := true, mode := TimerMode.focus }

/-! ## Response protocol parser (`App.tsx` lines 256-264)

The source matches the reply against the JS regex
`/\[SUGGESTIONS: (.*?)\]/`: the engine tries each start position left
to right; at a position the literal head `[SUGGESTIONS: ` must match
and the lazy `(.*?)` then extends minimally until the first `]`, where
`.` matches any character except a line terminator. -/

/-- The literal head of the directive pattern, `[SUGGESTIONS: `. -/
def directiveOpen : List Char := "[SUGGESTIONS: ".toList

/-- The characters the regex metacharacter `.` refuses (JS line
terminators). -/
def isLineTerminator (c : Char) : Bool :=
  c == '\n' || c == '\r' || c == '\u2028' || c == '\u2029'

/-- Whether a candidate payload can be produced by `(.*?)` followed by
`]`: no closing bracket (laziness stops at the first one) and no line
terminator inside it. -/
def payloadOk (mid : List Char) : Bool :=
  mid.all fun c => !(c == ']') && !(isLineTerminator c)

/-- The lazy completion of the pattern after the literal head: consume
characters minimally until the first `]`; fail on a line terminator or
the end of the text. Returns the payload and the text after `]`. -/
def lazyPayload : List Char → Option (List Char × List Char)
  | [] => none
  | c :: cs =>
    if c = ']' then some ([], cs)
    else if isLineTerminator c then none
    else (lazyPayload cs).map fun mp => (c :: mp.1, mp.2)

/-- The first match of `/\[SUGGESTIONS: (.*?)\]/` in the text, as the
decomposition (text before the match, payload, text after the match);
`none` when the regex does not match anywhere. -/
def findDirective : List Char → Option (List Char × List Char × List Char)
  | [] => none
  | c :: cs =>
    match (if listStartsWith directiveOpen (c :: cs)
           then lazyPayload ((c :: cs).drop directiveOpen.length)
           else none) with
    | some mp => some ([], mp.1, mp.2)
    | none => (findDirective cs).map fun r => (c :: r.1, r.2.1, r.2.2)

/-- `payload.split(',')`: split on every comma, keeping empty pieces
(JS `String.prototype.split` with a one-character separator). -/
def splitOnComma : List Char → List (List Char)
  | [] => [[]]
  | c :: cs =>
    if c = ',' then [] :: splitOnComma cs
    else match splitOnComma cs with
         | [] => [[c]]
         | t :: ts => (c :: t) :: ts

/-- Lines 258-263 of `handleSendMessage`: extract the suggestion chips
and the cleaned reply text. On a match the chips are the payload split
on commas with each piece trimmed (`.split(',').map(s => s.trim())`),
and the clean text is the reply with the whole matched directive removed
and then trimmed (`aiText.replace(/\[SUGGESTIONS: .*?\]/, '').trim()`);
otherwise the text is returned unchanged and no chips are produced. -/
def parseSuggestions (aiText : List Char) : List Char × List (List Char) :=
  match findDirective aiText with
  | some r => (jsTrim (r.1 ++ r.2.2), (splitOnComma r.2.1).map jsTrim)
  | none => (aiText, [])

/-! ## Data model (`App.tsx` lines 36-53) -/

/-- `Message.role`, the union type `'user' | 'model'`. -/
inductive Role where
  | user
  | model
deriving DecidableEq

/-- The optional `Message.type` tag `'chat' | 'study-plan' | 'crisis'`. -/
inductive MsgType where
  | chat
  | studyPlan
  | crisis
deriving DecidableEq

/-- A staged or sent file attachment (`App.tsx` lines 41-45). -/
structure Attachment where
  data : List Char
  mimeType : List Char
  name : List Char
deriving DecidableEq

/-- One chat message (`App.tsx` lines 37-46). -/
structure Message where
  role : Role
  text : List Char
  type : Option MsgType := none
  attachment : Option Attachment := none
deriving DecidableEq

/-- One chat session (`App.tsx` lines 48-53). -/
structure Chat where
  id : List Char
  title : List Char
  messages : List Message
  createdAt : Nat
deriving DecidableEq

/-- The session-store state: the session list and the active session id
(the `chats` and `currentChatId` component state of `App`). -/
structure Store where
  chats : List Chat
  currentChatId : List Char
deriving DecidableEq

/-- The seeded welcome message of the first-run session (line 102). -/
def WELCOME_TEXT : List Char :=
  ("Hi there. I'm MindEase. I know things can feel overwhelming right now, but I'm here to help. \n\nBefore we start, on a scale from 1–5, how overwhelmed are you right now?").toList

/-- The seeded welcome message of a session made by `createNewChat` (line 149). -/
def NEW_SESSION_TEXT : List Char :=
  ("Hi there. I'm MindEase. Before we dive in, on a scale from 1–5, how overwhelmed are you right now?").toList

/-- The first-run default session (lines 99-104); `now` stands for
`Date.now()`. -/
def initialChat (now : Nat) : Chat :=
  { id := "1".toList, title := "New Chat".toList,
    messages := [{ role := Role.model, text := WELCOME_TEXT }],
    createdAt := now }

/-- The first-run store: the default session, active (lines 96-107). -/
def initialStore (now : Nat) : Store :=
  { chats := [initialChat now], currentChatId := "1".toList }

/-! ## Session store operations (`App.tsx` lines 145-180) -/

/-- `createNewChat` (lines 145-155): prepend a fresh session with the
default title and a seeded welcome message and make it active. The
source generates `id` and `createdAt` from `Date.now()`; both are
parameters here. -/
def createNewChat (id : List Char) (now : Nat) (s : Store) : Store :=
  { chats := { id := id, title := "New Chat".toList,
               messages := [{ role := Role.model, text := NEW_SESSION_TEXT }],
               createdAt := now } :: s.chats,
    currentChatId := id }

/-- `deleteChat` (lines 157-165): no-op when only one session is left;
otherwise filter the session out and, if it was active, activate the
first remaining session. The `none` branch of the `match` mirrors the
out-of-bounds `newChats[0]` access, which the length guard makes
unreachable when session ids are distinct. -/
def deleteChat (id : List Char) (s : Store) : Store :=
  if s.chats.length = 1 then s
  else
    let newChats := s.chats.filter fun c => c.id != id
    { chats := newChats,
      currentChatId :=
        if s.currentChatId = id then
          match newChats.head? with
          | some c => c.id
          | none => []
        else s.currentChatId }

/-- The title auto-derivation inside `updateCurrentChatMessages`
(lines 170-175): while the title is still the default `"New Chat"` and
the new message list holds a user message, the title becomes the first
user message's first 20 characters (`slice(0, 20)`) with `'...'`
appended when the text is longer than 20 characters. -/
def deriveTitle (title : List Char) (newMessages : List Message) : List Char :=
  if title = "New Chat".toList ∧ newMessages.any (fun m => m.role == Role.user) then
    let firstUserMsg :=
      match newMessages.find? (fun m => m.role == Role.user) with
      | some m => m.text
      | none => []
    firstUserMsg.take 20 ++ (if 20 < firstUserMsg.length then "...".toList else [])
  else title

/-- `updateCurrentChatMessages` (lines 167-180): replace the active
session's message list (and possibly derive its title); every other
session is returned unchanged. -/
def updateCurrentChatMessages (currentChatId : List Char) (newMessages : List Message)
    (chats : List Chat) : List Chat :=
  chats.map fun c =>
    if c.id = currentChatId then
      { c with messages := newMessages, title := deriveTitle c.title newMessages }
    else c

/-- `setCurrentChatId` from the session list (lines 366-369): the
sidebar renders one button per listed session, so only an id present in
the store can be selected. -/
def setActive (id : List Char) (s : Store) : Store :=
  if s.chats.any (fun c => c.id == id) then { s with currentChatId := id } else s

/-- The store operations of the user interface. -/
inductive StoreOp where
  | create (id : List Char) (now : Nat)
  | delete (id : List Char)
  | append (msgs : List Message)
  | activate (id : List Char)

def applyOp : StoreOp → Store → Store
  | StoreOp.create id now, s => createNewChat id now s
  | StoreOp.delete id, s => deleteChat id s
  | StoreOp.append msgs, s =>
      { s with chats := updateCurrentChatMessages s.currentChatId msgs s.chats }
  | StoreOp.activate id, s => setActive id s

def runOps (s : Store) : List StoreOp → Store
  | [] => s
  | op :: ops => runOps (applyOp op s) ops

/-- The ids of the stored sessions, in list order. -/
def chatIds (s : Store) : List (List Char) := s.chats.map Chat.id

/-- Whether every `create` in the operation sequence uses an id that is
not already in the store at that point (the source draws ids from
`Date.now().toString()`; the specification calls them generated unique
ids). -/
def freshOps : Store → List StoreOp → Bool
  | _, [] => true
  | s, op :: ops =>
    (match op with
     | StoreOp.create id _ => decide (id ∉ chatIds s)
     | _ => true) && freshOps (applyOp op s) ops

/-- The store's health invariant: at least one session, the active id
references a stored session, and session ids are pairwise distinct. -/
def StoreInv (s : Store) : Prop :=
  s.chats ≠ [] ∧ s.currentChatId ∈ chatIds s ∧ (chatIds s).Nodup

instance (s : Store) : Decidable (StoreInv s) := by
  unfold StoreInv
  infer_instance

/-! ## Conversation controller (`handleSendMessage`, `App.tsx` lines 200-273) -/

/-- The canned crisis reply appended by the crisis short-circuit
(lines 224-228). -/
def CRISIS_TEXT : List Char :=
  ("I'm really concerned about what you're saying. Please know that you're not alone and there is support available. \n\n**Immediate Help:**\n- Contact your school counselor immediately.\n- International: [Befrienders Worldwide](https://www.befrienders.org/)\n- Crisis Text Line: Text HOME to 741741\n\nPlease reach out to a trusted adult or professional right now.").toList

/-- The fixed fallback apology substituted for a reply with no text
(`response.text || ...`, line 256). -/
def FALLBACK_TEXT : List Char :=
  ("I'm here for you, but I'm having a little trouble connecting. Could you try saying that again?").toList

/-- The controller-visible component state of `App`: the session store,
the chat-box draft, the staged attachment, the displayed suggestion
chips and the loading flag. `pending` models the outstanding
`generateContent` promises: each entry is the `updatedMessages` list the
asynchronous continuation captured when its request was issued. -/
structure ConvState where
  chats : List Chat
  currentChatId : List Char
  input : List Char
  attachedFile : Option Attachment
  suggestions : List (List Char)
  isLoading : Bool
  pending : List (List Message)
deriving DecidableEq

/-- `currentChat` (line 127): `chats.find(c => c.id === currentChatId) || chats[0]`
(the `headD` default mirrors the `chats[0]` fallback; the empty chat
stands for the out-of-bounds access on an empty list, unreachable under
the store invariant). -/
def currentChat (s : ConvState) : Chat :=
  match s.chats.find? (fun c => c.id == s.currentChatId) with
  | some c => c
  | none => s.chats.headD { id := [], title := [], messages := [], createdAt := 0 }

/-- The synchronous part of `handleSendMessage` (lines 200-254), up to
and including issuing the remote request: reject an empty draft with no
attachment; append the user message to the active session; clear the
draft, the staged attachment and the chips; set the loading flag; then
either short-circuit on a crisis match (appending the canned crisis
message and clearing the loading flag, lines 222-232) or issue the
remote call (recorded by pushing the captured message list onto
`pending`). -/
def handleSendStart (text : List Char) (s : ConvState) : ConvState :=
  if jsTrim text = [] ∧ s.attachedFile = none then s
  else
    let userMessage : Message := { role := Role.user, text := text,
                                   attachment := s.attachedFile }
    let updatedMessages := (currentChat s).messages ++ [userMessage]
    let s1 : ConvState :=
      { s with
        chats := updateCurrentChatMessages s.currentChatId updatedMessages s.chats,
        input := [], attachedFile := none, suggestions := [], isLoading := true }
    if crisisDetect text then
      { s1 with
        chats := updateCurrentChatMessages s1.currentChatId
          (updatedMessages ++ [{ role := Role.model, type := some MsgType.crisis,
                                 text := CRISIS_TEXT }]) s1.chats,
        isLoading := false }
    else
      { s1 with pending := s1.pending ++ [updatedMessages] }

/-- The success continuation of the oldest outstanding request
(lines 256-266 and the `finally` at line 271): substitute the fallback
for an empty reply, extract the suggestion directive if present
(setting the chips only then), append the model message built from the
captured `updatedMessages`, and clear the loading flag. -/
def resolveReply (reply : List Char) (s : ConvState) : ConvState :=
  match s.pending with
  | [] => s
  | ctx :: rest =>
    let aiText0 := if reply = [] then FALLBACK_TEXT else reply
    let parsed :=
      match findDirective aiText0 with
      | some r => (jsTrim (r.1 ++ r.2.2), some ((splitOnComma r.2.1).map jsTrim))
      | none => (aiText0, none)
    { s with
      chats := updateCurrentChatMessages s.currentChatId
        (ctx ++ [{ role := Role.model, text := parsed.1 }]) s.chats,
      suggestions := match parsed.2 with
        | some chips => chips
        | none => s.suggestions,
      pending := rest,
      isLoading := false }

/-- Whether the chat form's submit button is enabled:
`disabled={(!input.trim() && !attachedFile) || isLoading}` (line 635). -/
def sendButtonEnabled (s : ConvState) : Bool :=
  !((decide (jsTrim s.input = []) && decide (s.attachedFile = none)) || s.isLoading)

/-- The user-interface events that reach the controller. -/
inductive ConvEvent where
  | setInput (text : List Char)
  | clickSendButton
  | pressEnter
  | clickChip (i : Nat)
  | resolve (reply : List Char)

/-- One event step. The submit button fires only while enabled
(line 635); the Enter key handler (lines 610-615) and a rendered
suggestion chip (line 560) call `handleSendMessage` directly with no
loading guard; `resolve` is the arrival of a remote reply. -/
def applyEvent : ConvEvent → ConvState → ConvState
  | ConvEvent.setInput t, s => { s with input := t }
  | ConvEvent.clickSendButton, s =>
      if sendButtonEnabled s then handleSendStart s.input s else s
  | ConvEvent.pressEnter, s => handleSendStart s.input s
  | ConvEvent.clickChip i, s =>
      match s.suggestions.get? i with
      | some chip => handleSendStart chip s
      | none => s
  | ConvEvent.resolve reply, s => resolveReply reply s

def runEvents (s : ConvState) : List ConvEvent → ConvState
  | [] => s
  | e :: es => runEvents (applyEvent e s) es

/-- The controller state right after first run, privacy accepted,
nothing typed. -/
def initialConvState : ConvState :=
  { chats := [initialChat 0], currentChatId := "1".toList, input := [],
    attachedFile := none, suggestions := [], isLoading := false, pending := [] }

/-- How many user-authored messages the active session holds. -/
def userMessageCount (s : ConvState) : Nat :=
  ((currentChat s).messages.filter fun m => m.role == Role.user).length

/-! ## Startup hydration (`App.tsx` lines 96-107) -/

/-- A parsed JSON value, the result of `JSON.parse` on the stored blob. -/
inductive JsVal where
  | jnull
  | jbool (b : Bool)
  | jnum (n : Int)
  | jstr (s : List Char)
  | jarr (xs : List JsVal)
  | jobj (fields : List (List Char × JsVal))

def getField (fields : List (List Char × JsVal)) (k : List Char) : Option JsVal :=
  match fields.find? (fun f => f.1 == k) with
  | some f => some f.2
  | none => none

/-- Whether a JSON value has the shape of a stored `Message`. -/
def isMessageShape (v : JsVal) : Bool :=
  match v with
  | JsVal.jobj fs =>
    (match getField fs "role".toList with
     | some (JsVal.jstr r) => r == "user".toList || r == "model".toList
     | _ => false) &&
    (match getField fs "text".toList with
     | some (JsVal.jstr _) => true
     | _ => false)
  | _ => false

/-- Whether a JSON value has the shape of a stored `Chat`. -/
def isChatShape (v : JsVal) : Bool :=
  match v with
  | JsVal.jobj fs =>
    (match getField fs "id".toList with
     | some (JsVal.jstr _) => true
     | _ => false) &&
    (match getField fs "title".toList with
     | some (JsVal.jstr _) => true
     | _ => false) &&
    (match getField fs "messages".toList with
     | some (JsVal.jarr ms) => ms.all isMessageShape
     | _ => false) &&
    (match getField fs "createdAt".toList with
     | some (JsVal.jnum _) => true
     | _ => false)
  | _ => false

/-- Whether a parsed blob is a well-formed, non-empty session list. -/
def storeWellFormed (v : JsVal) : Bool :=
  match v with
  | JsVal.jarr (x :: xs) => (x :: xs).all isChatShape
  | _ => false

/-- The JSON shape of the first-run default session list (lines 99-105). -/
def initialChatsVal (now : Int) : JsVal :=
  JsVal.jarr [JsVal.jobj
    [("id".toList, JsVal.jstr "1".toList),
     ("title".toList, JsVal.jstr "New Chat".toList),
     ("messages".toList, JsVal.jarr [JsVal.jobj
       [("role".toList, JsVal.jstr "model".toList),
        ("text".toList, JsVal.jstr WELCOME_TEXT)]]),
     ("createdAt".toList, JsVal.jnum now)]]

/-- The `useState` initializer at lines 96-106: when a stored value is
present, `JSON.parse(saved)` is returned as the session list with no
shape validation; only when nothing is stored is the fresh default
session built. -/
def hydrateChats (now : Int) (saved : Option JsVal) : JsVal :=
  match saved with
  | some v => v
  | none => initialChatsVal now

/-- Line 107, `useState<string>(chats[0].id)`: the active-id
initializer reads `chats[0].id` from the hydrated value; `none` stands
for the runtime fault (`chats[0]` is `undefined`, or has no string
`id`) the untyped access produces on a blob of the wrong shape. -/
def initialCurrentChatId (v : JsVal) : Option (List Char) :=
  match v with
  | JsVal.jarr (x :: _) =>
    (match x with
     | JsVal.jobj fs =>
       (match getField fs "id".toList with
        | some (JsVal.jstr s) => some s
        | _ => none)
     | _ => none)
  | _ => none

/-! ## Concrete inputs used by the claims -/

def essayMessage : Message :=
  { role := Role.user, text := ("Plan my essay on memory and identity").toList }

def demoUserMessage : Message := { role := Role.user, text := ("hello").toList }

def demoChat2 : Chat :=
  { id := ("2").toList, title := ("Algebra help").toList,
    messages := [demoUserMessage], createdAt := 7 }

def demoStore : Store :=
  { chats := [initialChat 0, demoChat2], currentChatId := ("1").toList }

def demoOps : List StoreOp :=
  [StoreOp.create (("2").toList) 5, StoreOp.append [demoUserMessage],
   StoreOp.delete (("1").toList), StoreOp.activate (("2").toList),
   StoreOp.delete (("2").toList)]

/-- Type a message and send it with the Enter key, then type another
draft while the first request is still outstanding. -/
def c7prefixEvents : List ConvEvent :=
  [ConvEvent.setInput (("hello").toList), ConvEvent.pressEnter,
   ConvEvent.setInput (("please answer").toList)]

/-- The same run followed by a second Enter keypress before the first
reply arrives. -/
def c7events : List ConvEvent := c7prefixEvents ++ [ConvEvent.pressEnter]

/-- A send whose reply consists solely of a suggestions directive. -/
def c8events : List ConvEvent :=
  [ConvEvent.setInput (("hello").toList), ConvEvent.pressEnter,
   ConvEvent.resolve (("[SUGGESTIONS: Make a plan, Take a break]").toList)]

/-! ## Lemmas -/

lemma tick_decrement (s : TimerState) (n : Nat)
    (hA : s.isActive = true) (hT : s.timeLeft = n + 2) :
    tick s = { s with timeLeft := n + 1 } := by
  have hpos : 0 < s.timeLeft := by omega
  simp only [tick, hA, hT, if_pos (And.intro rfl hpos)]
  simp

lemma tick_expire (s : TimerState) (hA : s.isActive = true)
    (hT : s.timeLeft = 1) :
    tick s = expireEffect { s with timeLeft := 0 } := by
  have hpos : 0 < s.timeLeft := by omega
  simp only [tick, hA, hT, if_pos (And.intro rfl hpos)]
  simp


/-- Before the countdown reaches zero the timer just counts down and
stays active. -/
lemma ticks_before_expiry : ∀ (k : Nat) (s : TimerState), s.isActive = true →
    k < s.timeLeft → ticks k s = { s with timeLeft := s.timeLeft - k } := by
  intro k
  induction k with
  | zero => intro s hA hT; simp [ticks]
  | succ k ih =>
    intro s hA hT
    obtain ⟨n, hn⟩ : ∃ n, s.timeLeft = n + 2 := ⟨s.timeLeft - 2, by omega⟩
    have h1 := tick_decrement s n hA hn
    rw [ticks, h1]
    have hklt : k < n + 1 := by omega
    have h2 := ih { s with timeLeft := n + 1 } hA (by simpa using hklt)
    rw [h2]
    have he : n + 1 - k = s.timeLeft - (k + 1) := by omega
    simp [he]

/-- Running an active timer for exactly its remaining `n + 1` seconds
performs the expiry transition. -/
lemma ticks_run_to_zero (n : Nat) :
    ∀ s : TimerState, s.isActive = true → s.timeLeft = n + 1 →
      ticks (n + 1) s = expireEffect { s with timeLeft := 0 } := by
  induction n with
  | zero =>
      intro s hA hT
      simp only [ticks, tick_expire s hA hT]
  | succ n ih =>
      intro s hA hT
      have h1 : tick s = { s with timeLeft := n + 1 } := tick_decrement s n hA hT
      have h2 := ih { s with timeLeft := n + 1 } hA rfl
      simp only [ticks] at h2 ⊢
      rw [h1]
      simpa using h2


/-! ### Parser lemmas -/

lemma listStartsWith_exists {p l : List Char} (h : listStartsWith p l = true) :
    ∃ t, l = p ++ t := by
  induction p generalizing l with
  | nil => exact ⟨l, rfl⟩
  | cons a p ih =>
    cases l with
    | nil => simp [listStartsWith] at h
    | cons c cs =>
      simp only [listStartsWith, Bool.and_eq_true, beq_iff_eq] at h
      obtain ⟨t, ht⟩ := ih h.2
      exact ⟨t, by simp [h.1, ht]⟩

lemma listStartsWith_append (p t : List Char) :
    listStartsWith p (p ++ t) = true := by
  induction p with
  | nil => rfl
  | cons a p ih => simp [listStartsWith, ih]

lemma lazyPayload_sound :
    ∀ l mid post, lazyPayload l = some (mid, post) →
      l = mid ++ ']' :: post ∧ payloadOk mid = true := by
  intro l
  induction l with
  | nil => intro mid post h; simp [lazyPayload] at h
  | cons c cs ih =>
    intro mid post h
    rw [lazyPayload] at h
    split at h
    next hc =>
      simp only [Option.some.injEq, Prod.mk.injEq] at h
      obtain ⟨h1, h2⟩ := h
      subst h1; subst h2
      simp [hc, payloadOk]
    next hc =>
      split at h
      next ht => simp at h
      next ht =>
        rw [Option.map_eq_some'] at h
        obtain ⟨⟨m, p⟩, hmp, heq⟩ := h
        simp only [Prod.mk.injEq] at heq
        obtain ⟨h1, h2⟩ := heq
        subst h1; subst h2
        obtain ⟨hl, hok⟩ := ih m p hmp
        have ht' : isLineTerminator c = false := by simpa using ht
        constructor
        · simp [hl]
        · simp [payloadOk, hc, ht']
          simpa [payloadOk] using hok

lemma lazyPayload_complete (mid post : List Char) (h : payloadOk mid = true) :
    lazyPayload (mid ++ ']' :: post) = some (mid, post) := by
  induction mid with
  | nil => simp [lazyPayload]
  | cons c m ih =>
    simp only [payloadOk, List.all_cons, Bool.and_eq_true, Bool.not_eq_true',
      beq_eq_false_iff_ne, ne_eq] at h
    obtain ⟨⟨hc, ht⟩, hrest⟩ := h
    have ihm := ih (by simpa [payloadOk] using hrest)
    simp [lazyPayload, hc, ht, ihm]

lemma findDirective_sound :
    ∀ raw pre mid post, findDirective raw = some (pre, mid, post) →
      raw = pre ++ directiveOpen ++ mid ++ ']' :: post ∧ payloadOk mid = true := by
  intro raw
  induction raw with
  | nil => intro pre mid post h; simp [findDirective] at h
  | cons c cs ih =>
    intro pre mid post h
    rw [findDirective] at h
    split at h
    next mp heq =>
      simp only [Option.some.injEq, Prod.mk.injEq] at h
      obtain ⟨h1, h2, h3⟩ := h
      subst h1; subst h2; subst h3
      have hsw : listStartsWith directiveOpen (c :: cs) = true := by
        by_contra hn
        rw [if_neg hn] at heq
        exact Option.noConfusion heq
      rw [if_pos hsw] at heq
      obtain ⟨t, htl⟩ := listStartsWith_exists hsw
      have hdrop : (c :: cs).drop directiveOpen.length = t := by
        rw [htl, List.drop_left]
      rw [hdrop] at heq
      obtain ⟨hl, hok⟩ := lazyPayload_sound t mp.1 mp.2 heq
      refine ⟨?_, hok⟩
      rw [List.nil_append, List.append_assoc, ← hl]
      exact htl
    next heq =>
      rw [Option.map_eq_some'] at h
      obtain ⟨⟨p', m', q'⟩, hfd, hprod⟩ := h
      simp only [Prod.mk.injEq] at hprod
      obtain ⟨h1, h2, h3⟩ := hprod
      subst h1; subst h2; subst h3
      obtain ⟨hl, hok⟩ := ih p' m' q' hfd
      exact ⟨by simp [hl], hok⟩

lemma findDirective_cons_none {c : Char} {cs : List Char}
    (h : findDirective (c :: cs) = none) :
    findDirective cs = none := by
  rw [findDirective] at h
  split at h
  next mp heq => exact Option.noConfusion h
  next heq => exact Option.map_eq_none'.mp h

/-- A text that begins with a full well-formed directive is matched at
position zero. -/
lemma findDirective_open (t mid post : List Char)
    (h : lazyPayload t = some (mid, post)) :
    findDirective (directiveOpen ++ t) = some ([], mid, post) := by
  have e1 : directiveOpen ++ t = '[' :: ("SUGGESTIONS: ".toList ++ t) := rfl
  have hsw : listStartsWith directiveOpen ('[' :: ("SUGGESTIONS: ".toList ++ t)) = true := by
    rw [← e1]; exact listStartsWith_append _ _
  have hdrop : List.drop directiveOpen.length ('[' :: ("SUGGESTIONS: ".toList ++ t)) = t := by
    rw [← e1]; exact List.drop_left _ _
  rw [e1, findDirective, if_pos hsw, hdrop, h]

lemma findDirective_complete :
    ∀ (pre raw mid post : List Char), findDirective raw = none →
      raw = pre ++ directiveOpen ++ mid ++ ']' :: post →
      payloadOk mid = false := by
  intro pre
  induction pre with
  | nil =>
    intro raw mid post hnone hform
    simp only [List.nil_append] at hform
    rw [List.append_assoc] at hform
    by_contra hok
    have hok' : payloadOk mid = true := by
      cases h : payloadOk mid
      · exact absurd h hok
      · rfl
    have hlp := lazyPayload_complete mid post hok'
    have hfd := findDirective_open (mid ++ ']' :: post) mid post hlp
    rw [hform, hfd] at hnone
    exact Option.noConfusion hnone
  | cons a pre ih =>
    intro raw mid post hnone hform
    subst hform
    rw [show (a :: pre) ++ directiveOpen ++ mid ++ ']' :: post
        = a :: (pre ++ directiveOpen ++ mid ++ ']' :: post) from by simp] at hnone
    exact ih _ mid post (findDirective_cons_none hnone) rfl

lemma jsTrim_eq_rdrop (s : List Char) :
    jsTrim s = List.rdropWhile isJsWhitespace (s.dropWhile isJsWhitespace) := by
  simp [jsTrim, List.rdropWhile]

lemma dropWhile_prefix_clean (p : Char → Bool) {t l : List Char}
    (ht : t <+: l) (hl : l.dropWhile p = l) : t.dropWhile p = t := by
  rw [List.dropWhile_eq_self_iff] at hl ⊢
  intro h0
  obtain ⟨r, rfl⟩ := ht
  have h0' : 0 < (t ++ r).length := by
    rw [List.length_append]; omega
  have h := hl h0'
  have hg : (t ++ r).get ⟨0, h0'⟩ = t.get ⟨0, h0⟩ := by
    rw [List.get_eq_getElem, List.get_eq_getElem, List.getElem_append_left]
  rwa [hg] at h

/-- `trim` is idempotent. -/
lemma jsTrim_idem (s : List Char) : jsTrim (jsTrim s) = jsTrim s := by
  rw [jsTrim_eq_rdrop s, jsTrim_eq_rdrop]
  have hA : (s.dropWhile isJsWhitespace).dropWhile isJsWhitespace
      = s.dropWhile isJsWhitespace := List.dropWhile_idempotent _ _
  have hpre : List.rdropWhile isJsWhitespace (s.dropWhile isJsWhitespace)
      <+: s.dropWhile isJsWhitespace := List.rdropWhile_prefix _ _
  have hclean := dropWhile_prefix_clean isJsWhitespace hpre hA
  rw [hclean, List.rdropWhile_idempotent]

/-! ### Store lemmas -/

lemma chatIds_update (cur : List Char) (msgs : List Message) (chats : List Chat) :
    (updateCurrentChatMessages cur msgs chats).map Chat.id = chats.map Chat.id := by
  unfold updateCurrentChatMessages
  rw [List.map_map]
  apply List.map_congr_left
  intro c _
  by_cases h : c.id = cur <;> simp [h]

lemma length_le_filter_ids (x : List Char) :
    ∀ l : List Chat, (l.map Chat.id).Nodup →
      l.length ≤ (l.filter fun c => c.id != x).length + 1 := by
  intro l
  induction l with
  | nil => simp
  | cons a l ih =>
    intro h
    rw [List.map_cons, List.nodup_cons] at h
    obtain ⟨hna, hnd⟩ := h
    by_cases hax : a.id = x
    · have hall : ∀ b ∈ l, (b.id != x) = true := by
        intro b hb
        have hmem : b.id ∈ l.map Chat.id := List.mem_map_of_mem _ hb
        have hne : b.id ≠ x := by
          intro hbx
          exact hna (by rw [hax, ← hbx]; exact hmem)
        simp [hne]
      have hpa : (a.id != x) = false := by simp [hax]
      rw [List.filter_cons, hpa]
      simp only [Bool.false_eq_true, if_false]
      rw [List.filter_eq_self.mpr hall]
      simp
    · have hpa : (a.id != x) = true := by simp [hax]
      rw [List.filter_cons, hpa]
      simp only [if_true, List.length_cons]
      have := ih hnd
      omega

lemma inv_create (s : Store) (id : List Char) (now : Nat)
    (h : StoreInv s) (hf : id ∉ chatIds s) : StoreInv (createNewChat id now s) := by
  obtain ⟨-, -, h3⟩ := h
  refine ⟨by simp [createNewChat], ?_, ?_⟩
  · simp [createNewChat, chatIds]
  · have hf' : ∀ x ∈ s.chats, ¬ x.id = id := fun x hx hxid =>
      hf (List.mem_map.mpr ⟨x, hx, hxid⟩)
    simpa [createNewChat, chatIds, List.nodup_cons] using ⟨hf', h3⟩

lemma deleteChat_of_ne (id : List Char) (s : Store) (hlen : ¬ s.chats.length = 1) :
    deleteChat id s =
      { chats := s.chats.filter fun c => c.id != id,
        currentChatId :=
          if s.currentChatId = id then
            match (s.chats.filter fun c => c.id != id).head? with
            | some c => c.id
            | none => []
          else s.currentChatId } := by
  unfold deleteChat
  rw [if_neg hlen]

lemma inv_delete (s : Store) (id : List Char) (h : StoreInv s) :
    StoreInv (deleteChat id s) := by
  obtain ⟨h1, h2, h3⟩ := h
  by_cases hlen : s.chats.length = 1
  · unfold deleteChat
    rw [if_pos hlen]
    exact ⟨h1, h2, h3⟩
  · rw [deleteChat_of_ne id s hlen]
    have hge : 2 ≤ s.chats.length := by
      have : s.chats.length ≠ 0 := by
        intro h0
        exact h1 (List.length_eq_zero.mp h0)
      omega
    have hlenle := length_le_filter_ids id s.chats h3
    have hne : s.chats.filter (fun c => c.id != id) ≠ [] := by
      intro hnil
      rw [hnil] at hlenle
      simp at hlenle
      omega
    have hsub : ((s.chats.filter fun c => c.id != id).map Chat.id).Nodup :=
      h3.sublist (List.Sublist.map Chat.id (List.filter_sublist _))
    refine ⟨hne, ?_, hsub⟩
    show (if s.currentChatId = id then
        match (s.chats.filter fun c => c.id != id).head? with
        | some c => c.id
        | none => []
      else s.currentChatId) ∈ (s.chats.filter fun c => c.id != id).map Chat.id
    by_cases hcur : s.currentChatId = id
    · rw [if_pos hcur]
      obtain ⟨c, cs, hcs⟩ := List.exists_cons_of_ne_nil hne
      rw [hcs]
      simp
    · rw [if_neg hcur]
      obtain ⟨c, hc, hcid⟩ := List.mem_map.mp h2
      have hmem : c ∈ s.chats.filter fun x => x.id != id := by
        rw [List.mem_filter]
        refine ⟨hc, ?_⟩
        simp only [bne_iff_ne, ne_eq]
        intro hcx
        exact hcur (by rw [← hcid, hcx])
      exact List.mem_map.mpr ⟨c, hmem, hcid⟩

lemma inv_append (s : Store) (msgs : List Message) (h : StoreInv s) :
    StoreInv (applyOp (StoreOp.append msgs) s) := by
  obtain ⟨h1, h2, h3⟩ := h
  have hids : chatIds { s with
      chats := updateCurrentChatMessages s.currentChatId msgs s.chats } = chatIds s := by
    simp only [chatIds]
    exact chatIds_update _ _ _
  refine ⟨?_, ?_, ?_⟩
  · simp only [applyOp]
    intro hnil
    apply h1
    have := congrArg List.length (congrArg Store.chats (congrArg id rfl : ({ s with chats := updateCurrentChatMessages s.currentChatId msgs s.chats } : Store) = _))
    have hlen : (updateCurrentChatMessages s.currentChatId msgs s.chats).length = s.chats.length := by
      unfold updateCurrentChatMessages
      rw [List.length_map]
    rw [hnil] at hlen
    simp at hlen
    exact List.length_eq_zero.mp hlen.symm
  · simpa only [applyOp, hids] using h2
  · simpa only [applyOp, hids] using h3

lemma inv_activate (s : Store) (id : List Char) (h : StoreInv s) :
    StoreInv (setActive id s) := by
  obtain ⟨h1, h2, h3⟩ := h
  unfold setActive
  by_cases ha : s.chats.any (fun c => c.id == id) = true
  · rw [if_pos ha]
    rw [List.any_eq_true] at ha
    obtain ⟨c, hc, hcid⟩ := ha
    rw [beq_iff_eq] at hcid
    exact ⟨h1, List.mem_map.mpr ⟨c, hc, hcid⟩, h3⟩
  · rw [if_neg ha]
    exact ⟨h1, h2, h3⟩

lemma inv_run : ∀ (ops : List StoreOp) (s : Store), StoreInv s →
    freshOps s ops = true → StoreInv (runOps s ops) := by
  intro ops
  induction ops with
  | nil => intro s h _; exact h
  | cons op ops ih =>
    intro s h hf
    cases op with
    | create id now =>
      have hf1 : (decide (id ∉ chatIds s) && freshOps (applyOp (StoreOp.create id now) s) ops)
          = true := hf
      rw [Bool.and_eq_true] at hf1
      exact ih _ (inv_create s id now h (by simpa using hf1.1)) hf1.2
    | delete id =>
      have hf1 : (true && freshOps (applyOp (StoreOp.delete id) s) ops) = true := hf
      rw [Bool.and_eq_true] at hf1
      exact ih _ (inv_delete s id h) hf1.2
    | append msgs =>
      have hf1 : (true && freshOps (applyOp (StoreOp.append msgs) s) ops) = true := hf
      rw [Bool.and_eq_true] at hf1
      exact ih _ (inv_append s msgs h) hf1.2
    | activate id =>
      have hf1 : (true && freshOps (applyOp (StoreOp.activate id) s) ops) = true := hf
      rw [Bool.and_eq_true] at hf1
      exact ih _ (inv_activate s id h) hf1.2


/-! ## The claims -/

/-- C1 (amended). The crisis detector is a pure substring match of the
lowercased message text against the fixed keyword list, hence
insensitive to letter case; on the specification's examples it returns
false both for "I've been thinking about hurting myself lately" (the
keyword list holds the exact phrase "hurt myself", which is not a
substring of the inflected "hurting myself") and for "this homework is
killing me", while the exact listed phrase "hurt myself" does fire. -/
theorem crisis_detector_behaviour :
    (∀ t1 t2 : List Char, jsToLower t1 = jsToLower t2 →
      crisisDetect t1 = crisisDetect t2) ∧
    crisisDetect (("I've been thinking about hurting myself lately").toList) = false ∧
    crisisDetect (("this homework is killing me").toList) = false ∧
    crisisDetect (("I want to HURT MYSELF").toList) = true := by
  refine ⟨?_, by decide, by decide, by decide⟩
  intro t1 t2 h
  simp only [crisisDetect, h]

/-- C1 witness: the case-insensitivity conjunct applied at a concrete
pair of inputs differing only in letter case. -/
theorem crisis_detector_behaviour_witness :
    crisisDetect (("HURT myself now").toList) = crisisDetect (("hurt MYSELF now").toList) :=
  crisis_detector_behaviour.1 (("HURT myself now").toList) (("hurt MYSELF now").toList)
    (by decide)

/-- C1 counterexample: the claim asserts
`detect("I've been thinking about hurting myself lately") = true`, but
the detector returns false on that input (no keyword of
`CRISIS_KEYWORDS` is a substring of the lowercased text). -/
theorem crisis_detector_spec_example_refuted :
    crisisDetect (("I've been thinking about hurting myself lately").toList) = false := by
  decide

/-- C2. Deleting a session is a no-op when the store holds exactly one
session; starting from the initial store, any sequence of
create/delete/append/activate operations whose created ids are fresh
keeps the invariant (at least one session, the active id references a
stored session, ids pairwise distinct); and any delete on a healthy
store leaves the active id referencing a stored session. -/
theorem store_always_nonempty :
    (∀ (s : Store) (id : List Char), s.chats.length = 1 → deleteChat id s = s) ∧
    (∀ (now : Nat) (ops : List StoreOp), freshOps (initialStore now) ops = true →
      StoreInv (runOps (initialStore now) ops)) ∧
    (∀ (s : Store) (id : List Char), StoreInv s →
      (deleteChat id s).currentChatId ∈ chatIds (deleteChat id s)) := by
  refine ⟨?_, ?_, ?_⟩
  · intro s id h
    unfold deleteChat
    rw [if_pos h]
  · intro now ops hf
    refine inv_run ops (initialStore now) ?_ hf
    refine ⟨by simp [initialStore], ?_, ?_⟩
    · simp [initialStore, chatIds, initialChat]
    · simp [initialStore, chatIds, initialChat]
  · intro s id h
    exact (inv_delete s id h).2.1

/-- C2 witness: the three conjuncts at concrete inputs — deleting from
the one-session initial store is a no-op, a five-operation demo run
keeps the invariant, and deleting the active session of a two-session
store reactivates an existing session. -/
theorem store_always_nonempty_witness :
    deleteChat (("1").toList) (initialStore 0) = initialStore 0 ∧
    StoreInv (runOps (initialStore 0) demoOps) ∧
    (deleteChat (("1").toList) demoStore).currentChatId
      ∈ chatIds (deleteChat (("1").toList) demoStore) :=
  ⟨store_always_nonempty.1 (initialStore 0) (("1").toList) (by decide),
   store_always_nonempty.2.1 0 demoOps (by decide),
   store_always_nonempty.2.2 demoStore (("1").toList) (by decide)⟩

/-- C3 (amended). While the countdown has not yet expired the running
timer keeps counting down and stays active; at the moment the countdown
reaches zero the mode flips and the countdown reloads to the flipped-to
mode's configured duration, but the run state becomes inactive (the
effect calls `setIsActive(false)`), so the timer pauses instead of
cycling continuously. -/
theorem timer_flip_on_expiry (s : TimerState) (n : Nat)
    (hA : s.isActive = true) (hT : s.timeLeft = n + 1) :
    (∀ k, k ≤ n → (ticks k s).isActive = true) ∧
    (ticks (n + 1) s).mode = flipMode s.mode ∧
    (ticks (n + 1) s).timeLeft = modeMinutes s (flipMode s.mode) * 60 ∧
    (ticks (n + 1) s).isActive = false := by
  have hrun := ticks_run_to_zero n s hA hT
  refine ⟨?_, ?_, ?_, ?_⟩
  · intro k hk
    rw [ticks_before_expiry k s hA (by omega)]
    exact hA
  · rw [hrun]; rfl
  · rw [hrun]; rfl
  · rw [hrun]; rfl

/-- C3 witness: Focus at 25 minutes, running; after 1000 ticks the
timer is still active, and after 1500 ticks the mode is Rest, the
countdown is the configured 5-minute rest duration, and the run state
is inactive. -/
theorem timer_flip_on_expiry_witness :
    (ticks 1000 startFocus25).isActive = true ∧
    (ticks 1500 startFocus25).mode = TimerMode.rest ∧
    (ticks 1500 startFocus25).timeLeft = 300 ∧
    (ticks 1500 startFocus25).isActive = false := by
  have h := timer_flip_on_expiry startFocus25 1499 rfl rfl
  exact ⟨h.1 1000 (by norm_num), h.2.1, h.2.2.1, h.2.2.2⟩

/-- C3 counterexample: the claim states the run state remains active
across the flip, but after the 1500 one-second ticks that exhaust the
25-minute Focus countdown the timer is inactive (mode and countdown do
flip and reload). -/
theorem timer_not_running_after_flip :
    (ticks 1500 startFocus25).mode = TimerMode.rest ∧
    (ticks 1500 startFocus25).timeLeft = 300 ∧
    (ticks 1500 startFocus25).isActive = false := by
  have h := ticks_run_to_zero 1499 startFocus25 rfl rfl
  have e : (1499 : Nat) + 1 = 1500 := by norm_num
  rw [e] at h
  rw [h]
  exact ⟨rfl, rfl, rfl⟩

/-- C4 (amended). A session whose title is no longer the default
"New Chat" is never retitled by an append; for a default-titled session
an append containing a user message longer than 20 characters derives
the title as the first 20 characters of the first user message followed
by the three ASCII dots `...` (not the single ellipsis character `…`);
on "Plan my essay on memory and identity" the derived title is exactly
"Plan my essay on mem..." (the spelled-out `slice(0, 20)` prefix). -/
theorem title_derivation :
    (∀ (title : List Char) (msgs : List Message),
      ¬ title = (("New Chat").toList) → deriveTitle title msgs = title) ∧
    (∀ (msgs : List Message) (m : Message),
      msgs.find? (fun x => x.role == Role.user) = some m → 20 < m.text.length →
      deriveTitle (("New Chat").toList) msgs = m.text.take 20 ++ (("...").toList)) ∧
    (updateCurrentChatMessages (("1").toList) [essayMessage] [initialChat 0]).map Chat.title
      = [("Plan my essay on mem...").toList] := by
  refine ⟨?_, ?_, by decide⟩
  · intro title msgs h
    unfold deriveTitle
    rw [if_neg (fun hc => h hc.1)]
  · intro msgs m hfind hlen
    have hmem := List.mem_of_find?_eq_some hfind
    have hpred := List.find?_some hfind
    have hany : msgs.any (fun x => x.role == Role.user) = true :=
      List.any_eq_true.mpr ⟨m, hmem, hpred⟩
    unfold deriveTitle
    rw [if_pos (And.intro rfl hany), hfind]
    simp [hlen]

/-- C4 witness: the two general conjuncts at concrete inputs — a
non-default title survives an append, and the example essay message
derives its truncated dotted title. -/
theorem title_derivation_witness :
    deriveTitle (("Algebra help").toList) [essayMessage] = ("Algebra help").toList ∧
    deriveTitle (("New Chat").toList) [essayMessage]
      = (("Plan my essay on memory and identity").toList).take 20 ++ (("...").toList) :=
  ⟨title_derivation.1 (("Algebra help").toList) [essayMessage] (by decide),
   title_derivation.2.1 [essayMessage] essayMessage (by decide) (by decide)⟩

/-- C4 counterexample: the claim names the resulting title
"Plan my essay on memo…" (21 characters plus the ellipsis character);
the code produces "Plan my essay on mem..." — 20 characters plus three
ASCII dots — which differs from the claimed string. -/
theorem title_example_refuted :
    (updateCurrentChatMessages (("1").toList) [essayMessage] [initialChat 0]).map Chat.title
      = [("Plan my essay on mem...").toList] ∧
    ((("Plan my essay on mem...").toList == ("Plan my essay on memo…").toList) = false) := by
  decide

/-- C5 (amended). Every chip the parser returns is trimmed of
surrounding whitespace (trim is idempotent), but empty chips are NOT
discarded: the source maps `s.trim()` over the comma-split payload with
no filter, so the chip list can contain empty strings. On a match the
whole matched directive substring is removed and the remaining text
trimmed to produce `cleanText`; the specification's example parses as
stated. -/
theorem suggestion_parse_behaviour :
    (∀ (raw chip : List Char), chip ∈ (parseSuggestions raw).2 → jsTrim chip = chip) ∧
    (∀ (raw pre payload post : List Char),
      findDirective raw = some (pre, payload, post) →
      raw = pre ++ directiveOpen ++ payload ++ ']' :: post ∧
      parseSuggestions raw = (jsTrim (pre ++ post), (splitOnComma payload).map jsTrim)) ∧
    (parseSuggestions (("Let's break this down. [SUGGESTIONS: Make a plan, Take a break, Talk to someone]").toList)
      = ((("Let's break this down.").toList),
         [("Make a plan").toList, ("Take a break").toList, ("Talk to someone").toList])) := by
  refine ⟨?_, ?_, by decide⟩
  · intro raw chip hc
    cases h : findDirective raw with
    | none =>
      simp only [parseSuggestions, h] at hc
      simp at hc
    | some r =>
      simp only [parseSuggestions, h] at hc
      simp only [List.mem_map] at hc
      obtain ⟨x, -, rfl⟩ := hc
      exact jsTrim_idem x
  · intro raw pre payload post h
    obtain ⟨hform, -⟩ := findDirective_sound raw pre payload post h
    refine ⟨hform, ?_⟩
    simp only [parseSuggestions, h]

/-- C5 witness: the trimmed-chip conjunct and the decomposition
conjunct applied at concrete replies. -/
theorem suggestion_parse_behaviour_witness :
    jsTrim (("Make a plan").toList) = ("Make a plan").toList ∧
    parseSuggestions (("Hi [SUGGESTIONS: a, b] bye").toList)
      = (jsTrim ((("Hi ").toList) ++ ((" bye").toList)),
         (splitOnComma (("a, b").toList)).map jsTrim) :=
  ⟨suggestion_parse_behaviour.1 (("x [SUGGESTIONS: Make a plan]").toList)
      (("Make a plan").toList) (by decide),
   (suggestion_parse_behaviour.2.1 (("Hi [SUGGESTIONS: a, b] bye").toList)
      (("Hi ").toList) (("a, b").toList) ((" bye").toList) (by decide)).2⟩

/-- C5 counterexample: the claim states the returned chip list never
contains an empty string, but on the payload `a,,b` the parser returns
`["a", "", "b"]` — the empty chip between the two commas is kept. -/
theorem empty_chip_not_discarded :
    (parseSuggestions (("Here [SUGGESTIONS: a,,b]").toList)).2
      = [("a").toList, [], ("b").toList] ∧
    ([] : List Char) ∈ (parseSuggestions (("Here [SUGGESTIONS: a,,b]").toList)).2 := by
  decide

/-- C6 (amended). When the directive pattern is absent or unclosed — no
decomposition of the text into prefix, directive head, bracket-free and
terminator-free payload, closing bracket and suffix exists — the parser
returns the input text unchanged with no chips (and, being a total
function, it cannot fail on any input). A nested-bracket directive is
not in this class: the regex matches it, with the lazy payload
truncated at the first closing bracket (see the counterexample). -/
theorem parse_passthrough_when_not_found (raw : List Char)
    (h : ∀ pre mid post : List Char,
      raw = pre ++ directiveOpen ++ mid ++ ']' :: post → payloadOk mid = false) :
    parseSuggestions raw = (raw, []) := by
  cases hfd : findDirective raw with
  | some r =>
    obtain ⟨hform, hok⟩ := findDirective_sound raw r.1 r.2.1 r.2.2 hfd
    rw [h r.1 r.2.1 r.2.2 hform] at hok
    exact Bool.noConfusion hok
  | none => simp only [parseSuggestions, hfd]

/-- C6 witness: a reply with no directive and a reply with a missing
closing bracket both pass through unchanged. -/
theorem parse_passthrough_when_not_found_witness :
    parseSuggestions (("Just a normal reply, no directive here.").toList)
      = ((("Just a normal reply, no directive here.").toList), []) ∧
    parseSuggestions (("See [SUGGESTIONS: Make a plan").toList)
      = ((("See [SUGGESTIONS: Make a plan").toList), []) :=
  ⟨parse_passthrough_when_not_found (("Just a normal reply, no directive here.").toList)
      (fun pre mid post hform =>
        findDirective_complete pre (("Just a normal reply, no directive here.").toList)
          mid post (by decide) hform),
   parse_passthrough_when_not_found (("See [SUGGESTIONS: Make a plan").toList)
      (fun pre mid post hform =>
        findDirective_complete pre (("See [SUGGESTIONS: Make a plan").toList)
          mid post (by decide) hform)⟩

/-- C6 counterexample: the claim (with its spec source) classes a
nested-bracket directive as malformed and requires the text to pass
through unmodified, but on "Hi [SUGGESTIONS: [a] b]" the regex does
match — the lazy payload stops at the first closing bracket — so the
parser returns cleanText "Hi  b]" and the chip list ["[a"], not the
unchanged input. -/
theorem nested_bracket_directive_matches :
    parseSuggestions (("Hi [SUGGESTIONS: [a] b]").toList)
      = ((("Hi  b]").toList), [("[a").toList]) ∧
    ((parseSuggestions (("Hi [SUGGESTIONS: [a] b]").toList)).1
      == ("Hi [SUGGESTIONS: [a] b]").toList) = false := by
  decide

/-- C7. The claim says every further submit during `Sending` is
rejected. The submit button is indeed disabled while a send is in
flight, but the Enter-key handler calls `handleSendMessage` with no
loading guard: after sending "hello" the state is loading and the
button is disabled, yet typing a second draft and pressing Enter starts
a second send — two requests are then outstanding and a second user
message is appended before the first turn resolves. -/
theorem enter_key_double_send :
    (runEvents initialConvState c7prefixEvents).isLoading = true ∧
    sendButtonEnabled (runEvents initialConvState c7prefixEvents) = false ∧
    (runEvents initialConvState c7events).pending.length = 2 ∧
    userMessageCount (runEvents initialConvState c7events) = 2 := by
  decide

/-- C8 (amended). When a successful reply contains no text the
controller substitutes the fixed non-empty fallback apology and appends
it; nevertheless an empty model message can still be appended, because
a non-empty reply consisting solely of a suggestions directive is
emptied by the directive removal (see the counterexample). -/
theorem empty_reply_fallback :
    (∀ (s : ConvState) (ctx : List Message) (rest : List (List Message)),
      s.pending = ctx :: rest →
      resolveReply [] s =
        { s with
          chats := updateCurrentChatMessages s.currentChatId
            (ctx ++ [{ role := Role.model, text := FALLBACK_TEXT }]) s.chats,
          pending := rest, isLoading := false }) ∧
    FALLBACK_TEXT ≠ [] := by
  constructor
  · intro s ctx rest hp
    have hfd : findDirective FALLBACK_TEXT = none := by decide
    simp [resolveReply, hp, hfd]
  · decide

set_option maxRecDepth 8192 in
/-- C8 witness: resolving an empty reply for the one outstanding send
appends the fallback apology as the last message of the active
session. -/
theorem empty_reply_fallback_witness :
    (currentChat (resolveReply [] (runEvents initialConvState
        [ConvEvent.setInput (("hi").toList), ConvEvent.pressEnter]))).messages.getLast?
      = some { role := Role.model, text := FALLBACK_TEXT } := by
  have h := empty_reply_fallback.1
    (runEvents initialConvState [ConvEvent.setInput (("hi").toList), ConvEvent.pressEnter])
    ((initialChat 0).messages ++ [{ role := Role.user, text := ("hi").toList }])
    [] (by decide)
  rw [h]
  decide

/-- C8 counterexample: the claim says a model message with empty text
is never appended; after a successful call whose reply is exactly
`[SUGGESTIONS: Make a plan, Take a break]` the appended model message
has empty text (the directive is removed and the remainder trimmed). -/
theorem empty_model_message_appended :
    (currentChat (runEvents initialConvState c8events)).messages.getLast?
      = some { role := Role.model, text := [] } := by
  decide

/-- C9. An `updateCurrentChatMessages` call preserves the session
count; every session whose id differs from the targeted active id is
returned entirely unchanged, and even the targeted session keeps its
`id` and `createdAt` fields. -/
theorem append_updates_only_active_session (cur : List Char) (msgs : List Message)
    (chats : List Chat) :
    (updateCurrentChatMessages cur msgs chats).length = chats.length ∧
    ∀ (i : Nat) (h1 : i < chats.length)
      (h2 : i < (updateCurrentChatMessages cur msgs chats).length),
      ((updateCurrentChatMessages cur msgs chats).get ⟨i, h2⟩).id = (chats.get ⟨i, h1⟩).id ∧
      ((updateCurrentChatMessages cur msgs chats).get ⟨i, h2⟩).createdAt
        = (chats.get ⟨i, h1⟩).createdAt ∧
      ((chats.get ⟨i, h1⟩).id ≠ cur →
        (updateCurrentChatMessages cur msgs chats).get ⟨i, h2⟩ = chats.get ⟨i, h1⟩) := by
  constructor
  · simp [updateCurrentChatMessages]
  · intro i h1 h2
    have hg : (updateCurrentChatMessages cur msgs chats).get ⟨i, h2⟩
        = (fun c => if c.id = cur then
            { c with messages := msgs, title := deriveTitle c.title msgs } else c)
          (chats.get ⟨i, h1⟩) := by
      rw [List.get_eq_getElem, List.get_eq_getElem]
      simp [updateCurrentChatMessages]
    rw [hg]
    set c := chats.get ⟨i, h1⟩ with hcdef
    by_cases hc : c.id = cur
    · refine ⟨?_, ?_, ?_⟩ <;> simp [hc]
    · refine ⟨?_, ?_, ?_⟩ <;> simp [hc]

/-- C9 witness: updating session "1" in a two-session store leaves the
other session (id "2") untouched. -/
theorem append_updates_only_active_session_witness :
    (updateCurrentChatMessages (("1").toList) [essayMessage]
      [initialChat 0, demoChat2]).length = 2 ∧
    (updateCurrentChatMessages (("1").toList) [essayMessage]
      [initialChat 0, demoChat2]).get
        ⟨1, (by decide : 1 < (updateCurrentChatMessages (("1").toList) [essayMessage]
          [initialChat 0, demoChat2]).length)⟩ = demoChat2 := by
  have h := append_updates_only_active_session (("1").toList) [essayMessage]
    [initialChat 0, demoChat2]
  refine ⟨h.1, ?_⟩
  have h2 := (h.2 1 (by norm_num) (by rw [h.1]; norm_num)).2.2 (by decide)
  exact h2.trans (by rfl)

/-- C10. Startup hydration performs no shape validation: a present
stored value is returned as the session list as-is, so the stored blob
`[]` (a JSON array that is not a non-empty session array) hydrates to
an ill-formed store on which the `chats[0].id` initializer faults,
instead of falling back to the fresh default session — while the
no-stored-value path does build a well-formed default store. -/
theorem hydration_without_validation :
    (∀ (now : Int) (v : JsVal), hydrateChats now (some v) = v) ∧
    storeWellFormed (hydrateChats 0 (some (JsVal.jarr []))) = false ∧
    initialCurrentChatId (hydrateChats 0 (some (JsVal.jarr []))) = none ∧
    storeWellFormed (hydrateChats 0 none) = true ∧
    initialCurrentChatId (hydrateChats 0 none) = some (("1").toList) := by
  exact ⟨fun now v => rfl, by decide, by decide, by decide, by decide⟩

end MindEase